import Mathlib

/-
  Verification development for the Ampell interpreter (src/ampell.py).

  The Python source is shallowly embedded below:
  * Python dynamic values (int / float / str) become the `Value` inductive.
    Python floats are modelled as exact rationals (ℚ); this is the usual
    idealisation: the claims under study concern the *kind* of the result
    (float vs int) and true division, not IEEE rounding.  `inf`/`nan`
    literals and digit-group underscores accepted by Python's `float()` /
    `int()` are outside the model.
  * Python exceptions that escape the walker (TypeError from mixed-kind
    arithmetic/comparison, EOFError from `input()`, RecursionError) are
    modelled with `Except PyErr`.
  * Python `dict` (insertion ordered, last write wins) is modelled by the
    association-list operations `alookup` / `aset`.
  * `re.finditer` over the token alternation of `AmpellInterpreter.tokenize`
    is modelled by `nextMatch`, which applies the alternatives in their
    priority order at the current position; since every position is matched
    by some alternative (whitespace or the one-character MISMATCH fallback),
    the scan is a left-to-right partition of the input.  Line/column
    bookkeeping of the Python lexer is omitted: it only decorates tokens and
    error messages and is read by no later stage.
  * Python's `\w` / `\s` / identifier classes are taken over ASCII; the
    claims involve only ASCII programs.
-/

namespace Ampell

/-- Dynamic values of the interpreter: the three kinds of §3 of the design
(integer, floating-point, text).  Floats are modelled as exact rationals. -/
inductive Value where
  | vint (n : Int)
  | vfloat (q : ℚ)
  | vtext (s : String)
deriving DecidableEq

/-- Runtime (host-level) errors that abort the walker: TypeError from
mixed-kind operations, EOFError from `input()` at end of input, and the
fuel bound standing for Python's RecursionError / recursion limit. -/
inductive PyErr where
  | typeError
  | eofError
  | recursionError
deriving DecidableEq

/-- One line of produced console output: either a printed value (`$`,
whose host formatting we do not model) or a fixed message text. -/
inductive Out where
  | value (v : Value)
  | line (s : String)
deriving DecidableEq

/-! ### Character classes and Python string helpers (ASCII model) -/

/-- Python `\s` over ASCII: space, tab, newline, carriage return,
form feed, vertical tab. -/
def isPySpace (c : Char) : Bool :=
  c = ' ' ∨ c = '\t' ∨ c = '\n' ∨ c = '\r' ∨ c = '\x0c' ∨ c = '\x0b'

/-- Python `\w` over ASCII: letters, digits, underscore. -/
def isWordChar (c : Char) : Bool :=
  c.isAlpha ∨ c.isDigit ∨ c = '_'

/-- First character of `[a-zA-Z_]`-led identifiers. -/
def isIdentStart (c : Char) : Bool :=
  c.isAlpha ∨ c = '_'

/-- Python `str.strip()` on a character list: remove leading and trailing
whitespace. -/
def pyStripList (l : List Char) : List Char :=
  ((l.dropWhile isPySpace).reverse.dropWhile isPySpace).reverse

/-- Python `str.strip()`. -/
def pyStrip (s : String) : String :=
  String.mk (pyStripList s.data)

/-- Value of a digit string, most significant first. -/
def digitsToNat (l : List Char) : Nat :=
  l.foldl (fun acc c => 10 * acc + (c.toNat - '0'.toNat)) 0

/-- Python `int(str)` after stripping and sign removal: a nonempty
all-digit string. -/
def pyIntCore (l : List Char) : Option Nat :=
  if l ≠ [] ∧ l.all Char.isDigit then some (digitsToNat l) else none

/-- Python `int(str)` on an already-stripped character list: optional
sign, then digits. -/
def pyIntSigned (l : List Char) : Option Int :=
  match l with
  | '+' :: r => (pyIntCore r).map (fun n => (n : Int))
  | '-' :: r => (pyIntCore r).map (fun n => -(n : Int))
  | _ => (pyIntCore l).map (fun n => (n : Int))

/-- Python `int(str)`: strips surrounding whitespace, then optional sign
and a nonempty digit string; anything else raises `ValueError` (`none`). -/
def pyIntParse (s : String) : Option Int :=
  pyIntSigned (pyStripList s.data)

/-- Exponent suffix of a Python float literal: empty, or `e`/`E`, an
optional sign, and a nonempty digit string.  Scales the mantissa. -/
def pyFloatExp (l : List Char) (q : ℚ) : Option ℚ :=
  match l with
  | [] => some q
  | e :: r =>
    if e = 'e' ∨ e = 'E' then
      match r with
      | '+' :: d =>
        if d ≠ [] ∧ d.all Char.isDigit then some (q * 10 ^ (digitsToNat d : Int)) else none
      | '-' :: d =>
        if d ≠ [] ∧ d.all Char.isDigit then some (q * 10 ^ (-(digitsToNat d : Int))) else none
      | d =>
        if d ≠ [] ∧ d.all Char.isDigit then some (q * 10 ^ (digitsToNat d : Int)) else none
    else none

/-- Python `float(str)` mantissa after stripping and sign removal:
`digits [. digits]` or `. digits`, then an optional exponent. -/
def pyFloatCore (l : List Char) : Option ℚ :=
  let ip := l.takeWhile Char.isDigit
  let r1 := l.dropWhile Char.isDigit
  match r1 with
  | '.' :: r2 =>
    let fp := r2.takeWhile Char.isDigit
    let r3 := r2.dropWhile Char.isDigit
    if ip = [] ∧ fp = [] then none
    else pyFloatExp r3 ((digitsToNat (ip ++ fp) : ℚ) / 10 ^ fp.length)
  | _ =>
    if ip = [] then none else pyFloatExp r1 (digitsToNat ip : ℚ)

/-- Python `float(str)` on an already-stripped character list: optional
sign, then mantissa and exponent. -/
def pyFloatSigned (l : List Char) : Option ℚ :=
  match l with
  | '+' :: r => pyFloatCore r
  | '-' :: r => (pyFloatCore r).map Neg.neg
  | _ => pyFloatCore l

/-- Python `float(str)` (finite decimal forms; `inf`/`nan` are outside the
model and the result is the exact rational, not a rounded double). -/
def pyFloatParse (s : String) : Option ℚ :=
  pyFloatSigned (pyStripList s.data)

/-! ### Python value operations (the host semantics used by the walker) -/

/-- Python `==` on the three value kinds: numbers compare numerically
across int/float, texts compare as strings, text never equals a number. -/
def pyEq : Value → Value → Bool
  | .vint m, .vint n => m = n
  | .vint m, .vfloat q => (m : ℚ) = q
  | .vfloat p, .vint n => p = (n : ℚ)
  | .vfloat p, .vfloat q => p = q
  | .vtext s, .vtext t => s = t
  | _, _ => false

/-- Python string `<`: lexicographic by code point. -/
def listLtChar : List Char → List Char → Bool
  | [], [] => false
  | [], _ :: _ => true
  | _ :: _, [] => false
  | c :: cs, d :: ds =>
    if c < d then true else if d < c then false else listLtChar cs ds

/-- Python `<`: numeric across int/float, lexicographic on two texts, and
a `TypeError` when exactly one operand is text. -/
def pyLt : Value → Value → Except PyErr Bool
  | .vint m, .vint n => .ok (decide (m < n))
  | .vint m, .vfloat q => .ok (decide ((m : ℚ) < q))
  | .vfloat p, .vint n => .ok (decide (p < (n : ℚ)))
  | .vfloat p, .vfloat q => .ok (decide (p < q))
  | .vtext s, .vtext t => .ok (listLtChar s.data t.data)
  | _, _ => .error .typeError

/-- Python `a > b`, which for these kinds is `b < a`. -/
def pyGt (a b : Value) : Except PyErr Bool :=
  pyLt b a

/-- Python `a + b`: numeric addition (float-contaminating), text
concatenation, `TypeError` across kinds. -/
def pyAdd : Value → Value → Except PyErr Value
  | .vint m, .vint n => .ok (.vint (m + n))
  | .vint m, .vfloat q => .ok (.vfloat (m + q))
  | .vfloat p, .vint n => .ok (.vfloat (p + n))
  | .vfloat p, .vfloat q => .ok (.vfloat (p + q))
  | .vtext s, .vtext t => .ok (.vtext (s ++ t))
  | _, _ => .error .typeError

/-- Python `a - b`: numeric only; any text operand is a `TypeError`. -/
def pySub : Value → Value → Except PyErr Value
  | .vint m, .vint n => .ok (.vint (m - n))
  | .vint m, .vfloat q => .ok (.vfloat (m - q))
  | .vfloat p, .vint n => .ok (.vfloat (p - n))
  | .vfloat p, .vfloat q => .ok (.vfloat (p - q))
  | _, _ => .error .typeError

/-- Python string repetition `s * n` (empty for `n ≤ 0`). -/
def strRepeat (s : String) (n : Int) : String :=
  String.mk (List.flatten (List.replicate n.toNat s.data))

/-- Python `a * b`: numeric multiplication, text-by-int repetition (either
order), `TypeError` otherwise. -/
def pyMul : Value → Value → Except PyErr Value
  | .vint m, .vint n => .ok (.vint (m * n))
  | .vint m, .vfloat q => .ok (.vfloat (m * q))
  | .vfloat p, .vint n => .ok (.vfloat (p * n))
  | .vfloat p, .vfloat q => .ok (.vfloat (p * q))
  | .vtext s, .vint n => .ok (.vtext (strRepeat s n))
  | .vint m, .vtext t => .ok (.vtext (strRepeat t m))
  | _, _ => .error .typeError

/-- Python `a / b` (true division: int/int yields a float); any text
operand is a `TypeError`.  The walker guards `b == 0` before calling. -/
def pyDiv : Value → Value → Except PyErr Value
  | .vint m, .vint n => .ok (.vfloat ((m : ℚ) / (n : ℚ)))
  | .vint m, .vfloat q => .ok (.vfloat ((m : ℚ) / q))
  | .vfloat p, .vint n => .ok (.vfloat (p / (n : ℚ)))
  | .vfloat p, .vfloat q => .ok (.vfloat (p / q))
  | _, _ => .error .typeError

/-! ### Abstract syntax tree (the AST node classes of ampell.py) -/

/-- The AST node variants built by `AmpellParser`; a program or a body is
an ordered list of nodes (`ProgramNode.statements`). -/
inductive ASTNode where
  | push (value_str : String)
  | operator (op : String)
  | assign (var_name : String)
  | input (prompt : String) (var_name : String)
  | conditional (condition_type : String) (body : List ASTNode)
  | functionDef (name : String) (body : List ASTNode)
  | functionCall (name : String)
  | stackSwitch (stack_name : String)

/-! ### Association lists: the model of Python dict -/

/-- Python dict read `d[k]` / `d.get(k)`: first (unique) binding of `k`. -/
def alookup {α : Type} : List (String × α) → String → Option α
  | [], _ => none
  | (k2, v) :: t, k => if k2 = k then some v else alookup t k

/-- Python dict write `d[k] = v`: replace the binding in place if the key
exists, otherwise append a new binding (insertion order). -/
def aset {α : Type} : List (String × α) → String → α → List (String × α)
  | [], k, v => [(k, v)]
  | (k2, v2) :: t, k, v => if k2 = k then (k, v) :: t else (k2, v2) :: aset t k v

/-! ### Runtime state (`AmpellInterpreter.__init__`) -/

/-- The mutable interpreter state: named stacks (head of each list is the
top of that stack, i.e. the end of the Python list), the active stack
name, the variable table, the function table, the remaining stdin lines,
and the produced output. -/
structure State where
  «stacks» : List (String × List Value)
  current_stack : String
  vars : List (String × Value)
  functions : List (String × List ASTNode)
  stdin : List String
  output : List Out

/-- Fresh interpreter state: a single empty stack named "main" is active. -/
def initState (input_lines : List String) : State :=
  { «stacks» := [("main", [])]
  , current_stack := "main"
  , vars := []
  , functions := []
  , stdin := input_lines
  , output := [] }

/-- The `stack` property: the active stack.  The Python read
`self.stacks[self.current_stack]` cannot fail on reachable states (the
active name always exists, proved below); off that invariant the model
reads an empty stack where Python would raise `KeyError`. -/
def activeStack (st : State) : List Value :=
  (alookup st.stacks st.current_stack).getD []

/-- Replace the contents of the active stack. -/
def setStack (st : State) (l : List Value) : State :=
  { st with «stacks» := aset st.stacks st.current_stack l }

/-- Append one line of console output. -/
def addOut (st : State) (o : Out) : State :=
  { st with output := st.output ++ [o] }

/-! ### The walker's per-node rules -/

/-- The `startswith('"') and endswith('"')` quote stripping `value_str[1:-1]`
(for the single character `"` both tests hold and the result is empty,
as in Python). -/
def stripQuotes (l : List Char) : Option (List Char) :=
  if l.head? = some '"' ∧ l.getLast? = some '"' then some ((l.drop 1).dropLast)
  else none

/-- The final branches of `parse_value`: strip surrounding quotes if both
are present, else the text itself. -/
def textFallback (t : String) : Value :=
  match stripQuotes t.data with
  | some m => .vtext (String.mk m)
  | none => .vtext t

/-- Model of `AmpellInterpreter.parse_value`: strip, then variable lookup, then
numeric parse (`.` present ⇒ float else int), then quote stripping, then
the (stripped) text itself. -/
def parse_value (vars : List (String × Value)) (s : String) : Value :=
  let t := pyStrip s
  match alookup vars t with
  | some v => v
  | none =>
    if t.data.contains '.' then
      match pyFloatParse t with
      | some q => .vfloat q
      | none => textFallback t
    else
      match pyIntParse t with
      | some n => .vint n
      | none => textFallback t

/-- Model of `visit_PushNode`: resolve the payload and push it on the active stack. -/
def visit_PushNode (st : State) (value_str : String) : State :=
  setStack st (parse_value st.vars value_str :: activeStack st)

/-- Model of `visit_AssignNode`: peek (not pop) the top of the active stack into the
variable; no-op on an empty stack. -/
def visit_AssignNode (st : State) (var_name : String) : State :=
  match activeStack st with
  | [] => st
  | v :: _ => { st with vars := aset st.vars var_name v }

/-- The coercion of `visit_InputNode`:
`float(response) if '.' in response else int(response)`, falling back to
the raw text on `ValueError`. -/
def inputResolve (response : String) : Value :=
  if response.data.contains '.' then
    match pyFloatParse response with
    | some q => .vfloat q
    | none => .vtext response
  else
    match pyIntParse response with
    | some n => .vint n
    | none => .vtext response

/-- Model of `visit_InputNode`: show the prompt, consume one stdin line, coerce it,
bind the variable.  `input()` at end of input raises `EOFError`. -/
def visit_InputNode (st : State) (prompt var_name : String) : Except PyErr State :=
  match st.stdin with
  | [] => .error .eofError
  | line :: rest =>
    .ok { st with
            stdin := rest
          , output := st.output ++ [.line prompt]
          , vars := aset st.vars var_name (inputResolve line) }

/-- Model of `visit_StackSwitchNode`: empty name means "main"; create the stack
empty if unseen; activate it. -/
def visit_StackSwitchNode (st : State) (stack_name : String) : State :=
  let name := if stack_name = "" then "main" else stack_name
  let stacks2 :=
    if (alookup st.stacks name).isSome then st.stacks else st.stacks ++ [(name, [])]
  { st with «stacks» := stacks2, current_stack := name }

/-- Model of `visit_FunctionDefNode`: store the body, overwriting any prior one. -/
def visit_FunctionDefNode (st : State) (name : String) (body : List ASTNode) : State :=
  { st with functions := aset st.functions name body }

/-- The comparison step of `visit_ConditionalNode`: the guarded
`condition_met` chain (each comparison is only evaluated in its own
branch; an unknown operator leaves `condition_met` false). -/
def condValue (condition_type : String) (a b : Value) : Except PyErr Bool :=
  if condition_type = "=" then .ok (pyEq a b)
  else if condition_type = "!" then .ok (!pyEq a b)
  else if condition_type = "<" then pyLt a b
  else if condition_type = ">" then pyGt a b
  else .ok false

/-- Model of `visit_OperatorNode`: `%` pops, `$` prints the top; the four arithmetic
operators need two values — pop `b` then `a`, compute, push the single
result; division by zero prints an error and pushes `a` then `b` back.
The final catch-all mirrors the Python fall-through for an operator
symbol outside the handled set: both operands stay popped and nothing is
pushed (unreachable from the lexer's alphabet). -/
def visit_OperatorNode (st : State) (op : String) : Except PyErr State :=
  if op = "%" then
    match activeStack st with
    | [] => .ok st
    | _ :: rest => .ok (setStack st rest)
  else if op = "$" then
    match activeStack st with
    | [] => .ok st
    | v :: _ => .ok (addOut st (.value v))
  else if (activeStack st).length < 2 then .ok st
  else
    match activeStack st with
    | b :: a :: rest =>
      if op = "+" then
        match pyAdd a b with
        | .error e => .error e
        | .ok v => .ok (setStack st (v :: rest))
      else if op = "-" ∨ op = "−" then
        match pySub a b with
        | .error e => .error e
        | .ok v => .ok (setStack st (v :: rest))
      else if op = "*" ∨ op = "×" then
        match pyMul a b with
        | .error e => .error e
        | .ok v => .ok (setStack st (v :: rest))
      else if op = "/" ∨ op = "÷" then
        if pyEq b (.vint 0) then
          .ok (addOut (setStack st (b :: a :: rest)) (.line "Error: Division by zero"))
        else
          match pyDiv a b with
          | .error e => .error e
          | .ok v => .ok (setStack st (v :: rest))
      else .ok (setStack st rest)
    | _ => .ok st

/-- The walker over a statement list (a `ProgramNode` body, a conditional
body, or a function body).  Fuel decreases by one per dispatched call and
stands for Python's recursion limit; `recursionError` is unreachable for
any fuel exceeding the number of `visit` calls the run performs. -/
def evalList : Nat → State → List ASTNode → Except PyErr State
  | _, st, [] => .ok st
  | 0, _, _ :: _ => .error .recursionError
  | Nat.succ f, st, node :: rest =>
    let r : Except PyErr State :=
      match node with
      | .push s => .ok (visit_PushNode st s)
      | .operator op => visit_OperatorNode st op
      | .assign nm => .ok (visit_AssignNode st nm)
      | .input p nm => visit_InputNode st p nm
      | .stackSwitch nm => .ok (visit_StackSwitchNode st nm)
      | .functionDef nm body => .ok (visit_FunctionDefNode st nm body)
      | .functionCall nm =>
        match alookup st.functions nm with
        | some body => evalList f st body
        | none => .ok (addOut st (.line ("Error: Function '" ++ nm ++ "' not defined")))
      | .conditional ct body =>
        match activeStack st with
        | b :: a :: _ =>
          match condValue ct a b with
          | .error e => .error e
          | .ok true => evalList f st body
          | .ok false => .ok st
        | _ => .ok st
    match r with
    | .error e => .error e
    | .ok st2 => evalList f st2 rest

/-! ### The lexer (`AmpellInterpreter.tokenize`) -/

/-- Token kinds, named after the `token_specification` entries. -/
inductive TokKind where
  | PUSH | STACK_SWITCH | INPUT | ASSIGN | FUNC_DEF_INTRO | FUNC_CALL
  | COND_OP | L_BRACKET | R_BRACKET | OPERATOR | WHITESPACE | COMMENT | MISMATCH
deriving DecidableEq

/-- A token: kind and matched lexeme (line/column omitted — unread). -/
structure Tok where
  type : TokKind
  value : List Char
deriving DecidableEq

/-- A lexical error: the `MISMATCH` branch raises
`RuntimeError("Syntax Error: Unexpected character ...")`.  `fuelOut` is
the recursion bound of the model and is unreachable (each match consumes
at least one character and `tokenize` supplies one fuel per character). -/
inductive LexErr where
  | unexpectedChar (c : Char)
  | fuelOut
deriving DecidableEq

/-- The single-character OPERATOR class `[%\$+\-×÷*/]`.  Note that the
Unicode minus `−` handled by `visit_OperatorNode` is NOT in this class,
so it can never be lexed. -/
def isOpChar (c : Char) : Bool :=
  c = '%' ∨ c = '$' ∨ c = '+' ∨ c = '-' ∨ c = '×' ∨ c = '÷' ∨ c = '*' ∨ c = '/'

/-- One step of the regex scan at the current position `c :: cs`: try the
alternatives of `token_specification` in priority order, return the kind,
the matched lexeme, and the rest of the input.  Every position matches
(whitespace, or the one-character MISMATCH fallback `.`; a newline is
whitespace, so the MISMATCH exclusion of `\n` is moot). -/
def nextMatch (c : Char) (cs : List Char) : TokKind × List Char × List Char :=
  if c = '&' then
    -- PUSH: `&\[[^\]]*\]`
    match cs with
    | '[' :: r =>
      match r.dropWhile (fun x => x ≠ ']') with
      | ']' :: r2 => (.PUSH, c :: '[' :: (r.takeWhile (fun x => x ≠ ']') ++ [']']), r2)
      | _ => (.MISMATCH, [c], cs)
    | _ => (.MISMATCH, [c], cs)
  else if c = '\\' then
    -- STACK_SWITCH: `\\\[[^\]]*\]`
    match cs with
    | '[' :: r =>
      match r.dropWhile (fun x => x ≠ ']') with
      | ']' :: r2 => (.STACK_SWITCH, c :: '[' :: (r.takeWhile (fun x => x ≠ ']') ++ [']']), r2)
      | _ => (.MISMATCH, [c], cs)
    | _ => (.MISMATCH, [c], cs)
  else if c = '^' then
    -- INPUT: `\^\"[^\"]*\"~\w+`
    match cs with
    | '"' :: r =>
      match r.dropWhile (fun x => x ≠ '"') with
      | '"' :: '~' :: r2 =>
        if (r2.takeWhile isWordChar) = [] then (.MISMATCH, [c], cs)
        else
          (.INPUT,
           c :: '"' :: (r.takeWhile (fun x => x ≠ '"') ++ '"' :: '~' :: r2.takeWhile isWordChar),
           r2.dropWhile isWordChar)
      | _ => (.MISMATCH, [c], cs)
    | _ => (.MISMATCH, [c], cs)
  else if c = '>' then
    -- ASSIGN `>>[a-zA-Z_]\w*` first, else COND_OP `>`
    match cs with
    | '>' :: e :: r2 =>
      if isIdentStart e then
        (.ASSIGN, c :: '>' :: e :: r2.takeWhile isWordChar, r2.dropWhile isWordChar)
      else (.COND_OP, [c], cs)
    | _ => (.COND_OP, [c], cs)
  else if c = '@' then
    -- FUNC_DEF_INTRO: `@[a-zA-Z_]\w*`
    match cs with
    | d :: r =>
      if isIdentStart d then
        (.FUNC_DEF_INTRO, c :: d :: r.takeWhile isWordChar, r.dropWhile isWordChar)
      else (.MISMATCH, [c], cs)
    | _ => (.MISMATCH, [c], cs)
  else if isIdentStart c then
    -- FUNC_CALL: `[a-zA-Z_]\w*:` (the maximal word run must be followed
    -- by `:`; `\w` never matches `:`, so no shorter backtrack can succeed)
    match cs.dropWhile isWordChar with
    | ':' :: r2 => (.FUNC_CALL, c :: (cs.takeWhile isWordChar ++ [':']), r2)
    | _ => (.MISMATCH, [c], cs)
  else if c = '=' ∨ c = '!' ∨ c = '<' then (.COND_OP, [c], cs)
  else if c = '[' then (.L_BRACKET, [c], cs)
  else if c = ']' then (.R_BRACKET, [c], cs)
  else if isOpChar c then (.OPERATOR, [c], cs)
  else if isPySpace c then (.WHITESPACE, c :: cs.takeWhile isPySpace, cs.dropWhile isPySpace)
  else if c = '#' then
    -- COMMENT: `#[^\[\n].*` — needs one character after `#` that is
    -- neither `[` nor a newline, then the rest of the line
    match cs with
    | d :: r =>
      if d = '[' ∨ d = '\n' then (.MISMATCH, [c], cs)
      else (.COMMENT, c :: d :: r.takeWhile (fun x => x ≠ '\n'), r.dropWhile (fun x => x ≠ '\n'))
    | _ => (.MISMATCH, [c], cs)
  else (.MISMATCH, [c], cs)

/-- The scan loop of `tokenize`: WHITESPACE and COMMENT matches are
discarded, MISMATCH raises, everything else is emitted as a token. -/
def tokenizeAux : Nat → List Char → Except LexErr (List Tok)
  | _, [] => .ok []
  | 0, _ :: _ => .error .fuelOut
  | Nat.succ f, c :: cs =>
    match nextMatch c cs with
    | (.WHITESPACE, _, rest) => tokenizeAux f rest
    | (.COMMENT, _, rest) => tokenizeAux f rest
    | (.MISMATCH, _, _) => .error (.unexpectedChar c)
    | (k, v, rest) => (tokenizeAux f rest).map (fun ts => { type := k, value := v } :: ts)

/-- Model of `AmpellInterpreter.tokenize`: one fuel unit per input character is
always enough, since every match consumes at least one character. -/
def tokenize (code : String) : Except LexErr (List Tok) :=
  tokenizeAux code.data.length code.data

/-! ### The parser (`AmpellParser`) -/

/-- Parse-time exceptions: `SyntaxError` (missing `[`, unclosed body),
`ValueError` (unexpected token in statement position), the `IndexError`
Python would raise on an INPUT lexeme without `~` (unreachable from the
lexer), and the model's fuel bound (unreachable: `parse` supplies
`tokens.length + 1` and every statement consumes at least one token). -/
inductive ParseErr where
  | syntaxError (msg : String)
  | valueError (msg : String)
  | indexError
  | fuelOut
deriving DecidableEq

/-- Python `str.split(sep)` for a one-character separator. -/
def splitOnChar (sep : Char) : List Char → List (List Char)
  | [] => [[]]
  | c :: cs =>
    if c = sep then [] :: splitOnChar sep cs
    else
      match splitOnChar sep cs with
      | [] => [[c]]
      | p :: ps => (c :: p) :: ps

/-- Payload of an INPUT token: `parts = value[2:].split('~')`,
`prompt = parts[0][:-1]`, `var_name = parts[1]`. -/
def inputPayload (v : List Char) : Except ParseErr ASTNode :=
  match splitOnChar '~' (v.drop 2) with
  | p0 :: p1 :: _ => .ok (.input (String.mk p0.dropLast) (String.mk p1))
  | _ => .error .indexError

/-- Model of `AmpellParser.parse` together with `parse_statement`, as a function of
the remaining token list (the cursor): returns the parsed statements and
the unconsumed remainder.  The loop stops at end of input or at an
`R_BRACKET`, which is left unconsumed for the caller.  Fuel decreases
once per statement and once per body; `parse` supplies enough. -/
def parseB : Nat → List Tok → Except ParseErr (List ASTNode × List Tok)
  | _, [] => .ok ([], [])
  | 0, _ :: _ => .error .fuelOut
  | Nat.succ f, t :: rest =>
    if t.type = .R_BRACKET then .ok ([], t :: rest)
    else
      let step : Except ParseErr (ASTNode × List Tok) :=
        match t.type with
        | .FUNC_DEF_INTRO =>
          -- func_name = value[1:]; expect '[', body, ']'
          match rest with
          | l :: rest2 =>
            if l.type = .L_BRACKET then
              match parseB f rest2 with
              | .error e => .error e
              | .ok (body, rest3) =>
                match rest3 with
                | r :: rest4 =>
                  if r.type = .R_BRACKET then
                    .ok (.functionDef (String.mk (t.value.drop 1)) body, rest4)
                  else .error (.syntaxError "Unclosed function definition")
                | [] => .error (.syntaxError "Unclosed function definition")
            else .error (.syntaxError "Expected '[' after function definition")
          | [] => .error (.syntaxError "Expected '[' after function definition")
        | .COND_OP =>
          match rest with
          | l :: rest2 =>
            if l.type = .L_BRACKET then
              match parseB f rest2 with
              | .error e => .error e
              | .ok (body, rest3) =>
                match rest3 with
                | r :: rest4 =>
                  if r.type = .R_BRACKET then
                    .ok (.conditional (String.mk t.value) body, rest4)
                  else .error (.syntaxError "Unclosed conditional block")
                | [] => .error (.syntaxError "Unclosed conditional block")
            else .error (.syntaxError "Expected '[' after conditional operator")
          | [] => .error (.syntaxError "Expected '[' after conditional operator")
        | .PUSH => .ok (.push (String.mk ((t.value.drop 2).dropLast)), rest)
        | .OPERATOR => .ok (.operator (String.mk t.value), rest)
        | .ASSIGN => .ok (.assign (String.mk (t.value.drop 2)), rest)
        | .FUNC_CALL => .ok (.functionCall (String.mk t.value.dropLast), rest)
        | .STACK_SWITCH =>
          .ok (.stackSwitch (pyStrip (String.mk ((t.value.drop 2).dropLast))), rest)
        | .INPUT => (inputPayload t.value).map (fun n => (n, rest))
        | _ => .error (.valueError "Unexpected token during parsing")
      match step with
      | .error e => .error e
      | .ok (node, restN) =>
        match parseB f restN with
        | .error e => .error e
        | .ok (stmts, restF) => .ok (node :: stmts, restF)

/-- The top-level `AmpellParser.parse` as called by `execute`: parse
statements until end of input or a right bracket; any tokens after that
bracket are silently left unconsumed (and never executed). -/
def parseProgram (tokens : List Tok) : Except ParseErr (List ASTNode) :=
  match parseB (tokens.length + 1) tokens with
  | .error e => .error e
  | .ok (stmts, _) => .ok stmts

/-! ### The pipeline (`AmpellInterpreter.execute`) -/

/-- Any error of the three stages. -/
inductive ExecErr where
  | lexE (e : LexErr)
  | parseE (e : ParseErr)
  | runE (e : PyErr)
deriving DecidableEq

/-- Model of `AmpellInterpreter.execute`: Lexer → Parser → Walker on a fresh
interpreter, with the given stdin lines and walker fuel. -/
def execute (fuel : Nat) (input_lines : List String) (code : String) :
    Except ExecErr State :=
  match tokenize code with
  | .error e => .error (.lexE e)
  | .ok tokens =>
    match parseProgram tokens with
    | .error e => .error (.parseE e)
    | .ok prog =>
      match evalList fuel (initState input_lines) prog with
      | .error e => .error (.runE e)
      | .ok st => .ok st

/-! ### Association-list lemmas (dict behaviour) -/

theorem alookup_aset_self {α : Type} (l : List (String × α)) (k : String) (v : α) :
    alookup (aset l k v) k = some v := by
  induction l with
  | nil => simp [aset, alookup]
  | cons h t ih =>
    obtain ⟨k2, v2⟩ := h
    by_cases hk : k2 = k
    · subst hk; simp [aset, alookup]
    · simp [aset, alookup, hk, ih]

theorem alookup_aset_ne {α : Type} (l : List (String × α)) (k : String) (v : α)
    (k2 : String) (h : k2 ≠ k) : alookup (aset l k v) k2 = alookup l k2 := by
  induction l with
  | nil => simp [aset, alookup, Ne.symm h]
  | cons hd t ih =>
    obtain ⟨k3, v3⟩ := hd
    by_cases hk : k3 = k
    · subst hk; simp [aset, alookup, Ne.symm h]
    · simp [aset, alookup, hk, ih]

theorem aset_lookup_eq {α : Type} (l : List (String × α)) (k : String) (v : α)
    (h : alookup l k = some v) : aset l k v = l := by
  induction l with
  | nil => simp [alookup] at h
  | cons hd t ih =>
    obtain ⟨k2, v2⟩ := hd
    by_cases hk : k2 = k
    · subst hk
      have h2 : v2 = v := by simpa [alookup] using h
      subst h2
      simp [aset]
    · simp only [alookup, if_neg hk] at h
      simp [aset, hk, ih h]

theorem activeStack_setStack (st : State) (l : List Value) :
    activeStack (setStack st l) = l := by
  simp [activeStack, setStack, alookup_aset_self]

/-! ### C1: arithmetic operators pop two, push one; no-op below depth 2 -/

/-- C1: for each arithmetic operator (`+`, `-`/`−`, `*`/`×`, `/`/`÷`)
applied to an active stack holding at least two values, the walker pops
the top as `b` and the next as `a` and pushes exactly the one result
`a+b` / `a-b` / `a*b` / `a/b` (when that computation succeeds, and for
division when `b ≠ 0`), so the stack shrinks by exactly one; with fewer
than two values the operator is a no-op and nothing is popped. -/
theorem C1_arith_operator (st : State) (op : String) (b a : Value) (rest : List Value)
    (hop : op = "+" ∨ op = "-" ∨ op = "−" ∨ op = "*" ∨ op = "×" ∨ op = "/" ∨ op = "÷")
    (hstk : activeStack st = b :: a :: rest) :
    (op = "+" → ∀ v, pyAdd a b = .ok v →
        visit_OperatorNode st op = .ok (setStack st (v :: rest)))
  ∧ ((op = "-" ∨ op = "−") → ∀ v, pySub a b = .ok v →
        visit_OperatorNode st op = .ok (setStack st (v :: rest)))
  ∧ ((op = "*" ∨ op = "×") → ∀ v, pyMul a b = .ok v →
        visit_OperatorNode st op = .ok (setStack st (v :: rest)))
  ∧ ((op = "/" ∨ op = "÷") → pyEq b (.vint 0) = false → ∀ v, pyDiv a b = .ok v →
        visit_OperatorNode st op = .ok (setStack st (v :: rest)))
  ∧ (∀ v : Value, activeStack (setStack st (v :: rest)) = v :: rest ∧
        (v :: rest).length + 1 = (activeStack st).length)
  ∧ (∀ st2 : State, (activeStack st2).length < 2 → visit_OperatorNode st2 op = .ok st2) := by
  refine ⟨?_, ?_, ?_, ?_, ?_, ?_⟩
  · rintro rfl v hv
    simp [visit_OperatorNode, hstk, hv]
  · rintro (rfl | rfl) v hv <;> simp [visit_OperatorNode, hstk, hv]
  · rintro (rfl | rfl) v hv <;> simp [visit_OperatorNode, hstk, hv]
  · rintro (rfl | rfl) hz v hv <;> simp [visit_OperatorNode, hstk, hz, hv]
  · intro v
    exact ⟨activeStack_setStack st (v :: rest), by simp [hstk]⟩
  · intro st2 h2
    rcases hop with rfl | rfl | rfl | rfl | rfl | rfl | rfl <;>
      simp [visit_OperatorNode, h2, Nat.not_lt.mpr]

/-- Witness for C1 at `3 + 4` on the "main" stack. -/
theorem C1_arith_operator_witness :
    visit_OperatorNode
      { «stacks» := [("main", [Value.vint 4, Value.vint 3])], current_stack := "main",
        vars := [], functions := [], stdin := [], output := [] } "+"
    = .ok (setStack
      { «stacks» := [("main", [Value.vint 4, Value.vint 3])], current_stack := "main",
        vars := [], functions := [], stdin := [], output := [] } [Value.vint 7]) :=
  (C1_arith_operator
    { «stacks» := [("main", [Value.vint 4, Value.vint 3])], current_stack := "main",
      vars := [], functions := [], stdin := [], output := [] }
    "+" (Value.vint 4) (Value.vint 3) [] (Or.inl rfl) rfl).1 rfl (Value.vint 7) rfl

/-! ### C2: division by zero restores the stack and only reports -/

/-- C2: with at least two values and top `b` equal to `0`, `/` (or `÷`)
performs no division, prints "Error: Division by zero", and the resulting
state is the old one with only that line appended: the stack mapping is
untouched, so `a` and `b` are still in place (`a` below `b`) and the
stack size is unchanged. -/
theorem C2_div_by_zero (st : State) (op : String) (b a : Value) (rest : List Value)
    (hop : op = "/" ∨ op = "÷")
    (hstk : activeStack st = b :: a :: rest)
    (hz : pyEq b (.vint 0) = true) :
    visit_OperatorNode st op = .ok (addOut st (.line "Error: Division by zero"))
  ∧ activeStack (addOut st (.line "Error: Division by zero")) = b :: a :: rest
  ∧ (addOut st (.line "Error: Division by zero")).stacks = st.stacks := by
  have hsome : alookup st.stacks st.current_stack = some (b :: a :: rest) := by
    unfold activeStack at hstk
    cases halo : alookup st.stacks st.current_stack with
    | none => rw [halo] at hstk; simp at hstk
    | some l =>
      rw [halo] at hstk
      simp only [Option.getD_some] at hstk
      rw [hstk]
  have h1 : setStack st (b :: a :: rest) = st := by
    unfold setStack
    rw [aset_lookup_eq _ _ _ hsome]
  refine ⟨?_, ?_, rfl⟩
  · rcases hop with rfl | rfl <;> simp [visit_OperatorNode, hstk, hz, h1]
  · show activeStack st = b :: a :: rest
    exact hstk

/-- Witness for C2 at `5 / 0` on the "main" stack. -/
theorem C2_div_by_zero_witness :
    visit_OperatorNode
      { «stacks» := [("main", [Value.vint 0, Value.vint 5])], current_stack := "main",
        vars := [], functions := [], stdin := [], output := [] } "÷"
    = .ok (addOut
      { «stacks» := [("main", [Value.vint 0, Value.vint 5])], current_stack := "main",
        vars := [], functions := [], stdin := [], output := [] }
      (.line "Error: Division by zero")) :=
  (C2_div_by_zero
    { «stacks» := [("main", [Value.vint 0, Value.vint 5])], current_stack := "main",
      vars := [], functions := [], stdin := [], output := [] }
    "÷" (Value.vint 0) (Value.vint 5) [] (Or.inr rfl) rfl rfl).1

/-! ### C10: division of integers is true division, yielding a float -/

/-- C10: for integer operands `a` (second) and `b` (top) with `b ≠ 0`,
`/` (or `÷`) pushes the floating-point value `a/b` — never an integer,
even when `b` divides `a` exactly. -/
theorem C10_true_division (st : State) (op : String) (x y : Int) (rest : List Value)
    (hop : op = "/" ∨ op = "÷")
    (hstk : activeStack st = .vint y :: .vint x :: rest)
    (hy : y ≠ 0) :
    visit_OperatorNode st op = .ok (setStack st (.vfloat ((x : ℚ) / (y : ℚ)) :: rest)) := by
  have hz : pyEq (.vint y) (.vint 0) = false := by simp [pyEq, hy]
  rcases hop with rfl | rfl <;> simp [visit_OperatorNode, hstk, hz, pyDiv]

/-- Witness for C10 at `4 / 2`: the result is the float `2.0`, not the
integer `2`. -/
theorem C10_true_division_witness :
    visit_OperatorNode
      { «stacks» := [("main", [Value.vint 2, Value.vint 4])], current_stack := "main",
        vars := [], functions := [], stdin := [], output := [] } "/"
    = .ok (setStack
      { «stacks» := [("main", [Value.vint 2, Value.vint 4])], current_stack := "main",
        vars := [], functions := [], stdin := [], output := [] }
      [Value.vfloat (((4 : Int) : ℚ) / ((2 : Int) : ℚ))])
    ∧ Value.vfloat (((4 : Int) : ℚ) / ((2 : Int) : ℚ)) = Value.vfloat 2 :=
  ⟨C10_true_division
    { «stacks» := [("main", [Value.vint 2, Value.vint 4])], current_stack := "main",
      vars := [], functions := [], stdin := [], output := [] }
    "/" 4 2 [] (Or.inl rfl) rfl (by decide), by norm_num⟩

/-! ### C3: conditionals peek two values and gate their body -/

/-- One step of the walker at a single conditional with a deep-enough
stack: the whole evaluation is the comparison followed, on success, by
the body. -/
theorem evalList_singleton_cond (f : Nat) (st : State) (ct : String)
    (body : List ASTNode) (b a : Value) (rest : List Value)
    (hs : activeStack st = b :: a :: rest) :
    evalList (Nat.succ f) st [.conditional ct body] =
      (match condValue ct a b with
       | .error e => .error e
       | .ok true => evalList f st body
       | .ok false => .ok st) := by
  cases hc : condValue ct a b with
  | error e => simp [evalList, hs, hc]
  | ok r =>
    cases r
    · simp [evalList, hs, hc]
    · cases hb : evalList f st body <;> simp [evalList, hs, hc, hb]

/-- C3: a conditional with fewer than two values on the active stack is
skipped silently (no error, no state change); otherwise, with `b` the
top and `a` the second value only peeked, `=` gates on `a == b`, `!` on
`a ≠ b`, `<` on `a < b`, `>` on `a > b`, and the body runs (against the
untouched state) exactly when the comparison is true. -/
theorem C3_conditional (f : Nat) (st : State) (ct : String) (body : List ASTNode) :
    ((activeStack st).length < 2 →
        evalList (Nat.succ f) st [.conditional ct body] = .ok st)
  ∧ (∀ b a rest, activeStack st = b :: a :: rest →
        (ct = "=" →
            (pyEq a b = true →
               evalList (Nat.succ f) st [.conditional ct body] = evalList f st body)
          ∧ (pyEq a b = false →
               evalList (Nat.succ f) st [.conditional ct body] = .ok st))
      ∧ (ct = "!" →
            (pyEq a b = false →
               evalList (Nat.succ f) st [.conditional ct body] = evalList f st body)
          ∧ (pyEq a b = true →
               evalList (Nat.succ f) st [.conditional ct body] = .ok st))
      ∧ (ct = "<" → ∀ r, pyLt a b = .ok r →
            (r = true →
               evalList (Nat.succ f) st [.conditional ct body] = evalList f st body)
          ∧ (r = false →
               evalList (Nat.succ f) st [.conditional ct body] = .ok st))
      ∧ (ct = ">" → ∀ r, pyGt a b = .ok r →
            (r = true →
               evalList (Nat.succ f) st [.conditional ct body] = evalList f st body)
          ∧ (r = false →
               evalList (Nat.succ f) st [.conditional ct body] = .ok st))) := by
  constructor
  · intro h2
    cases hs : activeStack st with
    | nil => simp [evalList, hs]
    | cons x t =>
      cases t with
      | nil => simp [evalList, hs]
      | cons y t2 =>
        rw [hs] at h2
        simp only [List.length_cons] at h2
        omega
  · intro b a rest hs
    refine ⟨?_, ?_, ?_, ?_⟩
    · rintro rfl
      constructor
      · intro he
        rw [evalList_singleton_cond f st _ body b a rest hs]
        simp [condValue, he]
      · intro he
        rw [evalList_singleton_cond f st _ body b a rest hs]
        simp [condValue, he]
    · rintro rfl
      constructor
      · intro he
        rw [evalList_singleton_cond f st _ body b a rest hs]
        simp [condValue, he]
      · intro he
        rw [evalList_singleton_cond f st _ body b a rest hs]
        simp [condValue, he]
    · rintro rfl r hr
      constructor
      · rintro rfl
        rw [evalList_singleton_cond f st _ body b a rest hs]
        simp [condValue, hr]
      · rintro rfl
        rw [evalList_singleton_cond f st _ body b a rest hs]
        simp [condValue, hr]
    · rintro rfl r hr
      constructor
      · rintro rfl
        rw [evalList_singleton_cond f st _ body b a rest hs]
        simp [condValue, hr]
      · rintro rfl
        rw [evalList_singleton_cond f st _ body b a rest hs]
        simp [condValue, hr]

/-- Witness for C3: `1 = 1` runs the body (here a push of 2), and the
comparison popped nothing. -/
theorem C3_conditional_witness :
    evalList 2
      { «stacks» := [("main", [Value.vint 1, Value.vint 1])], current_stack := "main",
        vars := [], functions := [], stdin := [], output := [] }
      [.conditional "=" [.push "2"]]
    = evalList 1
      { «stacks» := [("main", [Value.vint 1, Value.vint 1])], current_stack := "main",
        vars := [], functions := [], stdin := [], output := [] }
      [.push "2"] :=
  (((C3_conditional 1
      { «stacks» := [("main", [Value.vint 1, Value.vint 1])], current_stack := "main",
        vars := [], functions := [], stdin := [], output := [] }
      "=" [.push "2"]).2 (Value.vint 1) (Value.vint 1) [] rfl).1 rfl).1 rfl

/-! ### C6 (amended): push resolves the *stripped* payload text -/

/-- C6 (amended): pushing resolves the whitespace-stripped payload text in
this order — existing variable name, else numeric parse (`.` present ⇒
float, else int), else quote stripping, else the stripped text itself —
and pushes the resolved value onto the active stack. -/
theorem C6_push_resolution :
    (∀ (st : State) (s : String),
        activeStack (visit_PushNode st s) = parse_value st.vars s :: activeStack st)
  ∧ (∀ (vars : List (String × Value)) (s : String) (v : Value),
        alookup vars (pyStrip s) = some v → parse_value vars s = v)
  ∧ (∀ (vars : List (String × Value)) (s : String),
        alookup vars (pyStrip s) = none → (pyStrip s).data.contains '.' = true →
        ∀ q, pyFloatParse (pyStrip s) = some q → parse_value vars s = .vfloat q)
  ∧ (∀ (vars : List (String × Value)) (s : String),
        alookup vars (pyStrip s) = none → (pyStrip s).data.contains '.' = false →
        ∀ n, pyIntParse (pyStrip s) = some n → parse_value vars s = .vint n)
  ∧ (∀ (vars : List (String × Value)) (s : String),
        alookup vars (pyStrip s) = none →
        ((pyStrip s).data.contains '.' = true ∧ pyFloatParse (pyStrip s) = none ∨
         (pyStrip s).data.contains '.' = false ∧ pyIntParse (pyStrip s) = none) →
        ∀ m, stripQuotes (pyStrip s).data = some m →
        parse_value vars s = .vtext (String.mk m))
  ∧ (∀ (vars : List (String × Value)) (s : String),
        alookup vars (pyStrip s) = none →
        ((pyStrip s).data.contains '.' = true ∧ pyFloatParse (pyStrip s) = none ∨
         (pyStrip s).data.contains '.' = false ∧ pyIntParse (pyStrip s) = none) →
        stripQuotes (pyStrip s).data = none →
        parse_value vars s = .vtext (pyStrip s)) := by
  refine ⟨?_, ?_, ?_, ?_, ?_, ?_⟩
  · intro st s
    simp [visit_PushNode, activeStack_setStack]
  · intro vars s v h
    simp [parse_value, h]
  · intro vars s h hdot q hq
    simp only [parse_value, h, hdot, hq]
    simp
  · intro vars s h hdot n hn
    simp only [parse_value, h, hdot, hn]
    simp
  · intro vars s h hnum m hm
    rcases hnum with ⟨hdot, hf⟩ | ⟨hdot, hf⟩ <;>
      (simp only [parse_value, h, hdot, hf, textFallback, hm]; simp)
  · intro vars s h hnum hm
    rcases hnum with ⟨hdot, hf⟩ | ⟨hdot, hf⟩ <;>
      (simp only [parse_value, h, hdot, hf, textFallback, hm]; simp)

/-- Witness for C6 at the float literal payload " 2.5". -/
theorem C6_push_resolution_witness :
    parse_value [] " 2.5" = Value.vfloat (5 / 2 : ℚ) :=
  C6_push_resolution.2.2.1 [] " 2.5" rfl rfl (5 / 2 : ℚ) (by
    simp +decide [pyFloatParse, pyFloatSigned, pyFloatCore, pyFloatExp, pyStrip,
      pyStripList, digitsToNat]
    norm_num)

/-- Counterexample to C6 as stated: the raw payload is NOT pushed
verbatim — surrounding whitespace is stripped first, both for the text
fallback and for the variable-name match. -/
theorem C6_counterexample :
    parse_value [] " hi " = Value.vtext "hi"
  ∧ Value.vtext "hi" ≠ Value.vtext " hi "
  ∧ parse_value [("x", Value.vint 5)] " x " = Value.vint 5 := by
  refine ⟨rfl, by decide, rfl⟩

/-! ### C7 (amended): input coercion is dot-gated, not int-then-float -/

/-- C7 (amended): an input line containing `.` gets one float-parse
attempt, any other line gets one int-parse attempt, and on failure the
line is kept as text; the result is bound to the variable (and the
prompt is printed, the line consumed).  No int-then-float chain exists:
a dotless float literal like "1e5" becomes text. -/
theorem C7_input_coercion :
    (∀ (st : State) (p nm line : String) (rest : List String),
        st.stdin = line :: rest →
        visit_InputNode st p nm =
          .ok { st with stdin := rest, output := st.output ++ [.line p],
                        vars := aset st.vars nm (inputResolve line) })
  ∧ (∀ line : String, line.data.contains '.' = true →
        ∀ q, pyFloatParse line = some q → inputResolve line = .vfloat q)
  ∧ (∀ line : String, line.data.contains '.' = true →
        pyFloatParse line = none → inputResolve line = .vtext line)
  ∧ (∀ line : String, line.data.contains '.' = false →
        ∀ n, pyIntParse line = some n → inputResolve line = .vint n)
  ∧ (∀ line : String, line.data.contains '.' = false →
        pyIntParse line = none → inputResolve line = .vtext line) := by
  refine ⟨?_, ?_, ?_, ?_, ?_⟩
  · intro st p nm line rest h
    simp [visit_InputNode, h]
  · intro line hdot q hq
    simp only [inputResolve, hdot, hq]
    simp
  · intro line hdot hq
    simp only [inputResolve, hdot, hq]
    simp
  · intro line hdot n hn
    simp only [inputResolve, hdot, hn]
    simp
  · intro line hdot hn
    simp only [inputResolve, hdot, hn]
    simp

/-- Witness for C7 on the line "2.5". -/
theorem C7_input_coercion_witness :
    inputResolve "2.5" = Value.vfloat (5 / 2 : ℚ) :=
  C7_input_coercion.2.1 "2.5" rfl (5 / 2 : ℚ) (by
    simp +decide [pyFloatParse, pyFloatSigned, pyFloatCore, pyFloatExp,
      pyStripList, digitsToNat]
    norm_num)

/-- Counterexample to C7 as stated: "1e5" is valid float text and not
valid int text, yet the interpreter binds it as the TEXT "1e5" (the
claimed int-parse-then-float-parse order does not exist in the code). -/
theorem C7_counterexample :
    pyFloatParse "1e5" = some 100000
  ∧ pyIntParse "1e5" = none
  ∧ evalList 2 (initState ["1e5"]) [.input "p" "x"] =
      .ok { «stacks» := [("main", [])], current_stack := "main",
            vars := [("x", Value.vtext "1e5")], functions := [],
            stdin := [], output := [.line "p"] } := by
  refine ⟨?_, by decide, rfl⟩
  simp +decide [pyFloatParse, pyFloatSigned, pyFloatCore, pyFloatExp,
    pyStripList, digitsToNat]
  norm_num

/-! ### C4: cross-kind ordering comparisons crash the run -/

/-- C4 (failing input for the claim): the program `&[1]&["x"]<[]` reaches
the conditional with the int 1 below the text "x"; the ordering
comparison raises a TypeError that aborts the whole run — the claimed
"never crashes, execution continues" is not what the code does. -/
theorem C4_mixed_compare_crash :
    execute 10 [] "&[1]&[\"x\"]<[]" = .error (.runE .typeError)
  ∧ pyLt (Value.vint 1) (Value.vtext "x") = .error .typeError := ⟨rfl, rfl⟩

/-! ### C5 (amended): parse failures abort, except a stray top-level `]` -/

/-- C5 (amended): the malformations `parse_statement` can see do raise
before anything executes — a missing `[` after a function-definition or
conditional intro, an unclosed body, a bare `[` in statement position —
and a parse error means `execute` performs no walker step at all; but an
unmatched `]` in top-level statement position is NOT an error: the parse
loop treats it as a block terminator, returns successfully, and the
tokens behind it are silently discarded. -/
theorem C5_parse_all_or_nothing :
    (∀ (f : Nat) (v : List Char) (t : Tok) (rest : List Tok), t.type ≠ .L_BRACKET →
        parseB (Nat.succ f) ({ type := .FUNC_DEF_INTRO, value := v } :: t :: rest)
          = .error (.syntaxError "Expected '[' after function definition"))
  ∧ (∀ (f : Nat) (v : List Char),
        parseB (Nat.succ f) [{ type := .FUNC_DEF_INTRO, value := v }]
          = .error (.syntaxError "Expected '[' after function definition"))
  ∧ (∀ (f : Nat) (v : List Char) (t : Tok) (rest : List Tok), t.type ≠ .L_BRACKET →
        parseB (Nat.succ f) ({ type := .COND_OP, value := v } :: t :: rest)
          = .error (.syntaxError "Expected '[' after conditional operator"))
  ∧ (∀ (f : Nat) (v lv : List Char) (toks : List Tok) (body : List ASTNode),
        parseB f toks = .ok (body, []) →
        parseB (Nat.succ f)
            ({ type := .FUNC_DEF_INTRO, value := v } :: { type := .L_BRACKET, value := lv } :: toks)
          = .error (.syntaxError "Unclosed function definition"))
  ∧ (∀ (f : Nat) (v lv : List Char) (toks : List Tok) (body : List ASTNode),
        parseB f toks = .ok (body, []) →
        parseB (Nat.succ f)
            ({ type := .COND_OP, value := v } :: { type := .L_BRACKET, value := lv } :: toks)
          = .error (.syntaxError "Unclosed conditional block"))
  ∧ (∀ (f : Nat) (v : List Char) (rest : List Tok),
        parseB (Nat.succ f) ({ type := .L_BRACKET, value := v } :: rest)
          = .error (.valueError "Unexpected token during parsing"))
  ∧ (∀ (v : List Char) (toks : List Tok),
        parseProgram ({ type := .R_BRACKET, value := v } :: toks) = .ok [])
  ∧ (∀ (fuel : Nat) (sd : List String) (code : String) (toks : List Tok) (e : ParseErr),
        tokenize code = .ok toks → parseProgram toks = .error e →
        execute fuel sd code = .error (.parseE e)) := by
  refine ⟨?_, ?_, ?_, ?_, ?_, ?_, ?_, ?_⟩
  · intro f v t rest ht
    simp [parseB, ht]
  · intro f v
    simp [parseB]
  · intro f v t rest ht
    simp [parseB, ht]
  · intro f v lv toks body hb
    simp [parseB, hb]
  · intro f v lv toks body hb
    simp [parseB, hb]
  · intro f v rest
    simp [parseB]
  · intro v toks
    simp [parseProgram, parseB]
  · intro fuel sd code toks e h1 h2
    simp [execute, h1, h2]

/-- Small witness for C5's amended statement: a function intro followed
by a push (no `[`) is rejected, while a stray leading `]` parses to the
empty program. -/
theorem C5_parse_all_or_nothing_witness :
    parseB 1 [{ type := .FUNC_DEF_INTRO, value := ['@', 'f'] },
              { type := .PUSH, value := ['&', '[', '1', ']'] }]
      = .error (.syntaxError "Expected '[' after function definition")
  ∧ parseProgram [{ type := .R_BRACKET, value := [']'] }] = .ok [] :=
  ⟨C5_parse_all_or_nothing.1 0 ['@', 'f'] { type := .PUSH, value := ['&', '[', '1', ']'] }
      [] (by decide),
   C5_parse_all_or_nothing.2.2.2.2.2.2.1 [']'] []⟩

/-- Counterexample to C5 as stated: the token sequence of `&[1]]&[2]`
contains an unmatched `]` in top-level statement position — a structural
malformation — yet parsing succeeds (no ParseError), the first push IS
executed, and the final push is silently discarded. -/
theorem C5_counterexample :
    tokenize "&[1]]&[2]"
      = .ok [{ type := .PUSH, value := ['&', '[', '1', ']'] },
             { type := .R_BRACKET, value := [']'] },
             { type := .PUSH, value := ['&', '[', '2', ']'] }]
  ∧ parseProgram [{ type := .PUSH, value := ['&', '[', '1', ']'] },
                  { type := .R_BRACKET, value := [']'] },
                  { type := .PUSH, value := ['&', '[', '2', ']'] }]
      = .ok [.push "1"]
  ∧ execute 10 [] "&[1]]&[2]"
      = .ok { «stacks» := [("main", [Value.vint 1])], current_stack := "main",
              vars := [], functions := [], stdin := [], output := [] } :=
  ⟨rfl, rfl, rfl⟩

/-! ### C9 (amended): comments need a character between `#` and the newline -/

theorem takeWhile_append_stop {α : Type} (p : α → Bool) (l r : List α) (y : α)
    (h : ∀ x ∈ l, p x = true) (hy : p y = false) :
    (l ++ y :: r).takeWhile p = l := by
  induction l with
  | nil => simp [List.takeWhile_cons, hy]
  | cons c t ih =>
    have hc : p c = true := h c (by simp)
    simp only [List.cons_append, List.takeWhile_cons, hc]
    simp [ih (fun x hx => h x (by simp [hx]))]

theorem dropWhile_append_stop {α : Type} (p : α → Bool) (l r : List α) (y : α)
    (h : ∀ x ∈ l, p x = true) (hy : p y = false) :
    (l ++ y :: r).dropWhile p = y :: r := by
  induction l with
  | nil => simp [List.dropWhile_cons, hy]
  | cons c t ih =>
    have hc : p c = true := h c (by simp)
    simp only [List.cons_append, List.dropWhile_cons, hc]
    simp [ih (fun x hx => h x (by simp [hx]))]

/-- C9 (amended): a `#` followed by at least one character that is
neither `[` nor a newline starts a comment: the lexer emits no token for
it and raises no error, discarding everything up to (not including) the
newline — lexing continues as if the comment were absent, and a comment
running to end of input yields no token at all.  But a `#` standing
immediately before a newline or at end of input matches no comment (the
COMMENT pattern `#[^\[\n].*` needs a character after `#`) and is a
lexical error on `#`. -/
theorem C9_comment_lexing :
    (∀ (f : Nat) (c : Char) (line rest : List Char),
        c ≠ '[' → c ≠ '\n' → (∀ x ∈ line, x ≠ '\n') →
        tokenizeAux (Nat.succ f) ('#' :: c :: (line ++ '\n' :: rest))
          = tokenizeAux f ('\n' :: rest))
  ∧ (∀ (c : Char) (line : List Char),
        c ≠ '[' → c ≠ '\n' → (∀ x ∈ line, x ≠ '\n') →
        tokenize (String.mk ('#' :: c :: line)) = .ok [])
  ∧ (∀ rest : List Char,
        tokenize (String.mk ('#' :: '\n' :: rest)) = .error (.unexpectedChar '#'))
  ∧ tokenize "#" = .error (.unexpectedChar '#') := by
  have hstep : ∀ (c : Char) (tail : List Char), c ≠ '[' → c ≠ '\n' →
      nextMatch '#' (c :: tail)
        = (.COMMENT, '#' :: c :: tail.takeWhile (fun x => x ≠ '\n'),
           tail.dropWhile (fun x => x ≠ '\n')) := by
    intro c tail h1 h2
    simp +decide [nextMatch, h1, h2]
  refine ⟨?_, ?_, ?_, rfl⟩
  · intro f c line rest h1 h2 hline
    have htake : (line ++ '\n' :: rest).takeWhile (fun x => x ≠ '\n') = line :=
      takeWhile_append_stop _ line rest '\n' (by simpa using hline) (by simp)
    have hdrop : (line ++ '\n' :: rest).dropWhile (fun x => x ≠ '\n') = '\n' :: rest :=
      dropWhile_append_stop _ line rest '\n' (by simpa using hline) (by simp)
    rw [tokenizeAux, hstep c _ h1 h2, htake, hdrop]
  · intro c line h1 h2 hline
    have hdrop : line.dropWhile (fun x => x ≠ '\n') = [] :=
      List.dropWhile_eq_nil_iff.mpr (by simpa using hline)
    show tokenizeAux (line.length + 2) ('#' :: c :: line) = .ok []
    rw [show line.length + 2 = Nat.succ (line.length + 1) from rfl,
        tokenizeAux, hstep c _ h1 h2, hdrop]
    rfl
  · intro rest
    show tokenizeAux (rest.length + 2) ('#' :: '\n' :: rest)
      = .error (.unexpectedChar '#')
    rw [show rest.length + 2 = Nat.succ (rest.length + 1) from rfl, tokenizeAux]
    have : nextMatch '#' ('\n' :: rest) = (.MISMATCH, ['#'], '\n' :: rest) := by
      simp +decide [nextMatch]
    rw [this]

/-- Witness for C9's amended statement: `#x` then a newline lexes like
just the newline, and `#x` at end of input lexes to nothing. -/
theorem C9_comment_lexing_witness :
    tokenizeAux 2 ['#', 'x', '\n'] = tokenizeAux 1 ['\n']
  ∧ tokenize (String.mk ['#', 'x']) = .ok [] :=
  ⟨C9_comment_lexing.1 1 'x' [] [] (by decide) (by decide) (by simp),
   C9_comment_lexing.2.1 'x' [] (by decide) (by decide) (by simp)⟩

/-- Counterexample to C9 as stated: a `#` immediately followed by a
newline (and likewise one at end of input) is NOT discarded as a
comment — the lexer raises an unexpected-character error on the `#`. -/
theorem C9_counterexample :
    tokenize "#\n" = .error (.unexpectedChar '#') := rfl

/-! ### C8: the "main" stack and the active stack always exist -/

/-- The runtime-state invariant of §3: a stack named "main" exists and
the active-stack name names an existing entry of the stack mapping. -/
def Inv (st : State) : Prop :=
  (alookup st.stacks "main").isSome = true
  ∧ (alookup st.stacks st.current_stack).isSome = true

theorem isSome_alookup_aset_of {α : Type} (l : List (String × α)) (k : String)
    (v : α) (k2 : String) (h : (alookup l k2).isSome = true) :
    (alookup (aset l k v) k2).isSome = true := by
  by_cases hk : k2 = k
  · subst hk; rw [alookup_aset_self]; rfl
  · rwa [alookup_aset_ne _ _ _ _ hk]

theorem alookup_append {α : Type} (l m : List (String × α)) (k : String) :
    alookup (l ++ m) k =
      (match alookup l k with
       | some v => some v
       | none => alookup m k) := by
  induction l with
  | nil => simp [alookup]
  | cons hd t ih =>
    obtain ⟨k2, v2⟩ := hd
    by_cases hk : k2 = k <;> simp [alookup, hk, ih]

theorem Inv_setStack (st : State) (l : List Value) (h : Inv st) :
    Inv (setStack st l) := by
  obtain ⟨h1, h2⟩ := h
  refine ⟨isSome_alookup_aset_of _ _ _ _ h1, ?_⟩
  show (alookup (aset st.stacks st.current_stack l) st.current_stack).isSome = true
  rw [alookup_aset_self]; rfl

theorem Inv_visit_PushNode (st : State) (s : String) (h : Inv st) :
    Inv (visit_PushNode st s) :=
  Inv_setStack st _ h

theorem Inv_visit_AssignNode (st : State) (nm : String) (h : Inv st) :
    Inv (visit_AssignNode st nm) := by
  unfold visit_AssignNode
  cases activeStack st with
  | nil => exact h
  | cons v t => exact h

theorem Inv_visit_InputNode (st st2 : State) (p nm : String)
    (h : visit_InputNode st p nm = .ok st2) (hI : Inv st) : Inv st2 := by
  unfold visit_InputNode at h
  cases hs : st.stdin with
  | nil => rw [hs] at h; cases h
  | cons line rest => rw [hs] at h; cases h; exact hI

theorem Inv_visit_StackSwitchNode (st : State) (nm : String) (h : Inv st) :
    Inv (visit_StackSwitchNode st nm) := by
  obtain ⟨h1, h2⟩ := h
  simp only [Inv, visit_StackSwitchNode]
  cases hc : (alookup st.stacks (if nm = "" then "main" else nm)).isSome with
  | true =>
    rw [if_pos rfl]
    exact ⟨h1, hc⟩
  | false =>
    rw [if_neg Bool.false_ne_true]
    have hnone : alookup st.stacks (if nm = "" then "main" else nm) = none :=
      Option.not_isSome_iff_eq_none.mp (by simp [hc])
    constructor
    · rw [alookup_append]
      cases halo : alookup st.stacks "main" with
      | none => rw [halo] at h1; cases h1
      | some l => rfl
    · show (alookup (st.stacks ++ [(if nm = "" then "main" else nm, [])])
              (if nm = "" then "main" else nm)).isSome = true
      rw [alookup_append, hnone]
      simp [alookup]

theorem Inv_visit_FunctionDefNode (st : State) (nm : String) (body : List ASTNode)
    (h : Inv st) : Inv (visit_FunctionDefNode st nm body) := h

theorem Inv_visit_OperatorNode (st st2 : State) (op : String)
    (h : visit_OperatorNode st op = .ok st2) (hI : Inv st) : Inv st2 := by
  unfold visit_OperatorNode at h
  repeat' split at h
  all_goals cases h <;> first
    | exact hI
    | exact Inv_setStack _ _ hI

theorem Inv_addOut (st : State) (o : Out) (h : Inv st) : Inv (addOut st o) := h

/-- The walker preserves the invariant: every successful evaluation step,
at any depth and including function-call bodies, produces a state whose
"main" stack and active stack both exist. -/
theorem evalList_Inv : ∀ (f : Nat) (prog : List ASTNode) (st st2 : State),
    Inv st → evalList f st prog = .ok st2 → Inv st2 := by
  intro f
  induction f with
  | zero =>
    intro prog st st2 hI h
    cases prog with
    | nil =>
      simp only [evalList, Except.ok.injEq] at h
      rwa [← h]
    | cons a l => simp [evalList] at h
  | succ f ih =>
    intro prog st st2 hI h
    cases prog with
    | nil =>
      simp only [evalList, Except.ok.injEq] at h
      rwa [← h]
    | cons node rest =>
      cases node with
      | push s =>
        simp only [evalList] at h
        exact ih rest _ st2 (Inv_visit_PushNode st s hI) h
      | operator op =>
        simp only [evalList] at h
        cases ho : visit_OperatorNode st op with
        | error e => rw [ho] at h; cases h
        | ok stm =>
          rw [ho] at h
          exact ih rest stm st2 (Inv_visit_OperatorNode st stm op ho hI) h
      | assign nm =>
        simp only [evalList] at h
        exact ih rest _ st2 (Inv_visit_AssignNode st nm hI) h
      | input p nm =>
        simp only [evalList] at h
        cases ho : visit_InputNode st p nm with
        | error e => rw [ho] at h; cases h
        | ok stm =>
          rw [ho] at h
          exact ih rest stm st2 (Inv_visit_InputNode st stm p nm ho hI) h
      | stackSwitch nm =>
        simp only [evalList] at h
        exact ih rest _ st2 (Inv_visit_StackSwitchNode st nm hI) h
      | functionDef nm body =>
        simp only [evalList] at h
        exact ih rest _ st2 (Inv_visit_FunctionDefNode st nm body hI) h
      | functionCall nm =>
        simp only [evalList] at h
        cases hf : alookup st.functions nm with
        | none =>
          simp only [hf] at h
          exact ih rest _ st2 (Inv_addOut st _ hI) h
        | some body =>
          simp only [hf] at h
          cases hb : evalList f st body with
          | error e => simp only [hb] at h; cases h
          | ok stb =>
            simp only [hb] at h
            exact ih rest stb st2 (ih body st stb hI hb) h
      | conditional ct body =>
        simp only [evalList] at h
        cases hs : activeStack st with
        | nil =>
          simp only [hs] at h
          exact ih rest st st2 hI h
        | cons b t =>
          cases t with
          | nil =>
            simp only [hs] at h
            exact ih rest st st2 hI h
          | cons a t2 =>
            simp only [hs] at h
            cases hc : condValue ct a b with
            | error e => simp only [hc] at h; cases h
            | ok r =>
              cases r with
              | false =>
                simp only [hc] at h
                exact ih rest st st2 hI h
              | true =>
                simp only [hc] at h
                cases hb : evalList f st body with
                | error e => simp only [hb] at h; cases h
                | ok stb =>
                  simp only [hb] at h
                  exact ih rest stb st2 (ih body st stb hI hb) h

/-- C8: the initial state satisfies the invariant ("main" exists and is
active); every walker step preserves it; and a stack switch activates
the resolved name (empty name means "main"), creates that stack empty
exactly when it was unseen, and never changes the contents of any
existing stack — so switching away and back preserves contents. -/
theorem C8_stack_invariants :
    (∀ input_lines : List String, Inv (initState input_lines))
  ∧ (∀ (f : Nat) (prog : List ASTNode) (st st2 : State),
        Inv st → evalList f st prog = .ok st2 → Inv st2)
  ∧ (∀ (st : State) (nm : String),
        (visit_StackSwitchNode st nm).current_stack
          = (if nm = "" then "main" else nm)
      ∧ (alookup st.stacks (if nm = "" then "main" else nm) = none →
           alookup (visit_StackSwitchNode st nm).stacks
               (if nm = "" then "main" else nm) = some [])
      ∧ (∀ (k : String) (v : List Value), alookup st.stacks k = some v →
           alookup (visit_StackSwitchNode st nm).stacks k = some v)) := by
  refine ⟨?_, evalList_Inv, ?_⟩
  · intro input_lines
    exact ⟨rfl, rfl⟩
  · intro st nm
    refine ⟨?_, ?_, ?_⟩
    · simp [visit_StackSwitchNode]
    · intro hnone
      show alookup (if (alookup st.stacks (if nm = "" then "main" else nm)).isSome
              then st.stacks
              else st.stacks ++ [(if nm = "" then "main" else nm, [])])
            (if nm = "" then "main" else nm) = some []
      rw [hnone]
      simp only [Option.isSome_none, Bool.false_eq_true, if_false]
      rw [alookup_append, hnone]
      simp [alookup]
    · intro k v hk
      show alookup (if (alookup st.stacks (if nm = "" then "main" else nm)).isSome
              then st.stacks
              else st.stacks ++ [(if nm = "" then "main" else nm, [])]) k = some v
      by_cases hc : (alookup st.stacks (if nm = "" then "main" else nm)).isSome = true
      · rw [if_pos hc]; exact hk
      · rw [if_neg hc, alookup_append, hk]

/-- Witness for C8: a fresh state is invariant, and after one switch to
the unseen stack "aux" it still is, "aux" is active and empty, and the
contents of "main" were preserved. -/
theorem C8_stack_invariants_witness :
    Inv (initState [])
  ∧ Inv (visit_StackSwitchNode (initState []) "aux")
  ∧ (visit_StackSwitchNode (initState []) "aux").current_stack = "aux"
  ∧ alookup (visit_StackSwitchNode (initState []) "aux").stacks "aux" = some []
  ∧ alookup (visit_StackSwitchNode (initState []) "aux").stacks "main" = some [] :=
  ⟨C8_stack_invariants.1 [],
   Inv_visit_StackSwitchNode (initState []) "aux" (C8_stack_invariants.1 []),
   by
    have h := (C8_stack_invariants.2.2 (initState []) "aux").1
    simpa using h,
   by
    have h := (C8_stack_invariants.2.2 (initState []) "aux").2.1
    simpa using h rfl,
   (C8_stack_invariants.2.2 (initState []) "aux").2.2 "main" [] rfl⟩

end Ampell
